import Mathlib

/-!
Shallow embedding of `iyes_scene_tools` (src/src/lib.rs), a Bevy scene-extraction
helper library, together with proofs of its specified properties.

Modelling conventions:
* `Entity`, `ComponentId`, `TypeId` are opaque identifiers, modelled as `Nat`.
* `Value` is the opaque result of `clone_value()` on a reflected component.
* A Rust component type `T` (a `ComponentList` element) is a `Kind`.
* The host `World` offers: the live entities in query-iteration order, the
  `component_id::<T>()` lookup, `components().get_info(id)` composed with
  `info.type_id().unwrap()`, the archetype lookup chain
  `entities().get(e)` / `archetypes().get(loc.archetype_id)` (yielding the
  component ids physically stored for the entity), and the optional
  `TypeRegistry` resource.
* `ReflectComponent::reflect(world, entity)` is modelled as a function
  `Entity → Option Value` stored in the registration (the world argument is
  the same world throughout a call, so it is closed over).
* Rust panics (`unwrap` on the registry resource, `expect` in
  `ComponentList::do_component_ids`) are modelled with `Except Panic` /
  `Option`, where `none` / `.error` is a panic.
* Bevy's `HashMap<Entity, ComponentSelection>` is modelled as an association
  list with `insert`-replaces-existing-key semantics; `HashSet<ComponentId>`
  as a duplicate-free list with insert-if-absent.
-/

abbrev Entity := Nat
abbrev ComponentId := Nat
abbrev TypeId := Nat
abbrev Value := Nat
abbrev Kind := Nat

/-- One entry of the type registry: `reg.data::<ReflectComponent>()` is the
`reflectComponent` field; when present, `rc.reflect(world, entity)` is the
stored function applied to the entity. -/
structure Registration where
  reflectComponent : Option (Entity → Option Value)

/-- The `TypeRegistry` resource: `type_registry.get(type_id)`. -/
structure TypeRegistry where
  get : TypeId → Option Registration

/-- The host Bevy `World`, restricted to the capabilities this library uses. -/
structure World where
  /-- Live entities, in query-iteration order. -/
  entities : List Entity
  /-- `world.component_id::<T>()`: the `ComponentId` registered for a kind. -/
  compOf : Kind → Option ComponentId
  /-- `world.components().get_info(id).map(|info| info.type_id().unwrap())`. -/
  getInfo : ComponentId → Option TypeId
  /-- `world.entities().get(e).and_then(|eloc| world.archetypes().get(eloc.archetype_id))`,
  exposing the component ids physically present in the entity's archetype. -/
  archetypeOf : Entity → Option (List ComponentId)
  /-- `world.get_resource::<TypeRegistry>()`. -/
  typeRegistry : Option TypeRegistry

/-- `DynamicEntity { entity, components }`. -/
structure DynamicEntity where
  entity : Entity
  components : List Value
deriving DecidableEq, Repr

/-- `DynamicScene { entities }`. -/
structure DynamicScene where
  entities : List DynamicEntity
deriving DecidableEq, Repr

/-- The two panics this library can raise. -/
inductive Panic where
  /-- `world.get_resource::<TypeRegistry>().unwrap()` on a world without the resource. -/
  | noTypeRegistry
  /-- `world.component_id::<T>().expect("Component not in World")`. -/
  | componentNotInWorld
deriving DecidableEq, Repr

/-- `Box::clone_value()` on a reflected component: an opaque clone. -/
def clone_value (v : Value) : Value := v

/-- The chained optional lookup shared by all three entry points
(`get_reflect_by_id` closures at lib.rs lines 35–41, 85–91, 291–297):
component info → registry entry → `ReflectComponent` data → reflected value →
cloned value. Any step failing collapses to `none`. -/
def get_reflect_by_id (w : World) (tr : TypeRegistry) (e : Entity)
    (id : ComponentId) : Option Value :=
  ((((w.getInfo id).bind fun tid => tr.get tid).bind
      fun reg => reg.reflectComponent).bind
      fun rc => rc e).map clone_value

/-- `ComponentList::do_component_ids`: resolve every declared kind to its
`ComponentId`, in declaration order; `none` models the
`expect("Component not in World")` panic on an unregistered kind. -/
def do_component_ids (w : World) : List Kind → Option (List ComponentId)
  | [] => some []
  | k :: ks =>
    match w.compOf k with
    | none => none
    | some id => (do_component_ids w ks).map fun ids => id :: ids

/-- Whether entity `e`'s archetype physically contains component `id`
(the semantics of a `With<T>` query filter once `T` is registered). -/
def hasComp (w : World) (e : Entity) (id : ComponentId) : Bool :=
  match w.archetypeOf e with
  | some cs => cs.contains id
  | none => false

/-- `Q::QueryFilter` = `(With<T1>, …, With<Tn>)`: the entity has every
declared kind. A kind with no `ComponentId` matches no entity (Bevy registers
the component when the query is built, and no entity can carry a
freshly-registered component). -/
def kindsMatch (w : World) (Q : List Kind) (e : Entity) : Bool :=
  Q.all fun k =>
    match w.compOf k with
    | some id => hasComp w e id
    | none => false

/-- The component ids enumerated by the archetype introspection
`….into_iter().flat_map(|a| a.components())`: empty when the entity/archetype
lookup fails. -/
def archComponents (w : World) (e : Entity) : List ComponentId :=
  (w.archetypeOf e).getD []

/-- The `q.iter().map(…).collect()` loop of `scene_from_query_components`:
each matching entity becomes a `DynamicEntity` whose components are the
declared ids (resolved per entity by `do_component_ids`, whose `expect`
short-circuits as the inner error) surviving the reflection chain. -/
def sfqcLoop (w : World) (tr : TypeRegistry) (Q : List Kind) :
    List Entity → Except Panic (List DynamicEntity)
  | [] => Except.ok []
  | e :: es =>
    match do_component_ids w Q with
    | none => Except.error Panic.componentNotInWorld
    | some ids =>
      match sfqcLoop w tr Q es with
      | Except.error p => Except.error p
      | Except.ok rest =>
        Except.ok
          ({ entity := e
             components := ids.filterMap (get_reflect_by_id w tr e) } :: rest)

/-- `scene_from_query_components::<Q, F>(world)` (lib.rs 23–60): the registry
resource is unwrapped, then the query loop `sfqcLoop` runs over the entities
matching (`Q::QueryFilter`, `F`). -/
def scene_from_query_components (w : World) (Q : List Kind)
    (F : Entity → Bool) : Except Panic DynamicScene :=
  match w.typeRegistry with
  | none => Except.error Panic.noTypeRegistry
  | some tr =>
    match sfqcLoop w tr Q (w.entities.filter fun e => kindsMatch w Q e && F e) with
    | Except.ok entities => Except.ok { entities := entities }
    | Except.error p => Except.error p

/-- `scene_from_query_filter::<F>(world)` (lib.rs 74–110). -/
def scene_from_query_filter (w : World) (F : Entity → Bool) :
    Except Panic DynamicScene :=
  match w.typeRegistry with
  | none => Except.error Panic.noTypeRegistry
  | some tr =>
    Except.ok
      { entities := (w.entities.filter F).map fun e =>
          { entity := e
            components :=
              (archComponents w e).filterMap (get_reflect_by_id w tr e) } }

/-- `ComponentSelection` (lib.rs 112–115). -/
inductive ComponentSelection where
  | all
  | byIds (ids : List ComponentId)
deriving DecidableEq, Repr

/-- `HashSet::insert` on the modelled set: a present element leaves the set
unchanged, a new one is added. -/
def hsInsert : List ComponentId → ComponentId → List ComponentId
  | [], id => [id]
  | x :: s, id => if x = id then x :: s else x :: hsInsert s id

/-- `Q::do_component_ids(world, &mut |id| {c.insert(id);})` applied to an
already-resolved id list. -/
def hsInsertMany (s : List ComponentId) (ids : List ComponentId) :
    List ComponentId :=
  ids.foldl hsInsert s

/-- `HashMap::insert` / in-place `get_mut` value replacement: a present key
keeps its slot and gets the new value, an absent key is appended. -/
def ecInsert : List (Entity × ComponentSelection) → Entity →
    ComponentSelection → List (Entity × ComponentSelection)
  | [], e, v => [(e, v)]
  | p :: m, e, v => if p.1 = e then (e, v) :: m else p :: ecInsert m e v

/-- `HashMap::get` on the modelled mapping. -/
def ecGet : List (Entity × ComponentSelection) → Entity →
    Option ComponentSelection
  | [], _ => none
  | p :: m, e => if p.1 = e then some p.2 else ecGet m e

/-- `SceneBuilder` (lib.rs 130–133); the borrowed world is passed to each
operation explicitly. -/
structure SceneBuilder where
  ec : List (Entity × ComponentSelection)
deriving DecidableEq, Repr

/-- `SceneBuilder::new` (lib.rs 140–145). -/
def SceneBuilder.new : SceneBuilder := { ec := [] }

/-- `SceneBuilder::add_from_query_filter::<F>` (lib.rs 156–166): every entity
matching the filter is inserted with the `All` selection. -/
def SceneBuilder.add_from_query_filter (w : World) (b : SceneBuilder)
    (F : Entity → Bool) : SceneBuilder :=
  { ec := (w.entities.filter F).foldl
      (fun m e => ecInsert m e ComponentSelection.all) b.ec }

/-- `SceneBuilder::add_entity` (lib.rs 176–179). -/
def SceneBuilder.add_entity (b : SceneBuilder) (e : Entity) : SceneBuilder :=
  { ec := ecInsert b.ec e ComponentSelection.all }

/-- `SceneBuilder::add_entities` (lib.rs 213–221). -/
def SceneBuilder.add_entities (b : SceneBuilder) (es : List Entity) :
    SceneBuilder :=
  { ec := es.foldl (fun m e => ecInsert m e ComponentSelection.all) b.ec }

/-- The shared merge step of `add_components_to_entity`,
`add_components_to_entities` and `add_with_components` (lib.rs 193–201,
237–245, 267–275): an existing `ByIds` selection is extended in place, an
existing `All` selection is left untouched (the kinds are not even resolved),
and an absent entity is inserted with exactly the resolved kinds. `none`
propagates the `do_component_ids` panic. -/
def addCompsStep (w : World) (Q : List Kind)
    (m : List (Entity × ComponentSelection)) (e : Entity) :
    Option (List (Entity × ComponentSelection)) :=
  match ecGet m e with
  | some (ComponentSelection.byIds c) =>
    (do_component_ids w Q).map fun ids =>
      ecInsert m e (ComponentSelection.byIds (hsInsertMany c ids))
  | some ComponentSelection.all => some m
  | none =>
    (do_component_ids w Q).map fun ids =>
      ecInsert m e (ComponentSelection.byIds (hsInsertMany [] ids))

/-- `SceneBuilder::add_components_to_entity::<Q>` (lib.rs 189–203). -/
def SceneBuilder.add_components_to_entity (w : World) (b : SceneBuilder)
    (Q : List Kind) (e : Entity) : Option SceneBuilder :=
  (addCompsStep w Q b.ec e).map fun m => { ec := m }

/-- `SceneBuilder::add_components_to_entities::<I, Q>` (lib.rs 231–248). -/
def SceneBuilder.add_components_to_entities (w : World) (b : SceneBuilder)
    (Q : List Kind) (es : List Entity) : Option SceneBuilder :=
  (es.foldlM (addCompsStep w Q) b.ec).map fun m => { ec := m }

/-- `SceneBuilder::add_with_components::<Q, F>` (lib.rs 259–278). -/
def SceneBuilder.add_with_components (w : World) (b : SceneBuilder)
    (Q : List Kind) (F : Entity → Bool) : Option SceneBuilder :=
  ((w.entities.filter fun e => kindsMatch w Q e && F e).foldlM
      (addCompsStep w Q) b.ec).map fun m => { ec := m }

/-- `SceneBuilder::build_scene` (lib.rs 287–326). It takes `&self`, so in the
model it consumes nothing and returns only the scene. -/
def SceneBuilder.build_scene (w : World) (b : SceneBuilder) :
    Except Panic DynamicScene :=
  match w.typeRegistry with
  | none => Except.error Panic.noTypeRegistry
  | some tr =>
    Except.ok
      { entities := b.ec.map fun p =>
          { entity := p.1
            components :=
              match p.2 with
              | ComponentSelection.all =>
                (archComponents w p.1).filterMap (get_reflect_by_id w tr p.1)
              | ComponentSelection.byIds ids =>
                ids.filterMap (get_reflect_by_id w tr p.1) } }

/-! ### Helper lemmas about the modelled hash containers -/

theorem mem_hsInsert (s : List ComponentId) (id a : ComponentId) :
    a ∈ hsInsert s id ↔ a ∈ s ∨ a = id := by
  induction s with
  | nil => simp [hsInsert]
  | cons x xs ih =>
    by_cases h : x = id
    · subst h
      rw [show hsInsert (x :: xs) x = x :: xs from by simp [hsInsert]]
      rw [List.mem_cons]
      tauto
    · simp only [hsInsert, if_neg h, List.mem_cons, ih]
      tauto

theorem nodup_hsInsert (s : List ComponentId) (id : ComponentId)
    (h : s.Nodup) : (hsInsert s id).Nodup := by
  induction s with
  | nil => simp [hsInsert]
  | cons x xs ih =>
    rw [List.nodup_cons] at h
    by_cases hx : x = id
    · subst hx
      simpa [hsInsert, List.nodup_cons] using h
    · rw [hsInsert, if_neg hx, List.nodup_cons]
      refine ⟨?_, ih h.2⟩
      rw [mem_hsInsert]
      rintro (hmem | rfl)
      · exact h.1 hmem
      · exact hx rfl

theorem mem_hsInsertMany (s ids : List ComponentId) (a : ComponentId) :
    a ∈ hsInsertMany s ids ↔ a ∈ s ∨ a ∈ ids := by
  induction ids generalizing s with
  | nil => simp [hsInsertMany]
  | cons x xs ih =>
    show a ∈ hsInsertMany (hsInsert s x) xs ↔ _
    rw [ih, mem_hsInsert]
    simp [or_assoc]

theorem nodup_hsInsertMany (s ids : List ComponentId) (h : s.Nodup) :
    (hsInsertMany s ids).Nodup := by
  induction ids generalizing s with
  | nil => exact h
  | cons x xs ih => exact ih _ (nodup_hsInsert s x h)

theorem ecGet_ecInsert_self (m : List (Entity × ComponentSelection))
    (e : Entity) (v : ComponentSelection) :
    ecGet (ecInsert m e v) e = some v := by
  induction m with
  | nil => simp [ecInsert, ecGet]
  | cons p ps ih =>
    by_cases h : p.1 = e
    · simp [ecInsert, ecGet, h]
    · simp [ecInsert, ecGet, h, ih]

theorem ecGet_ecInsert_ne (m : List (Entity × ComponentSelection))
    (e e' : Entity) (v : ComponentSelection) (h : e ≠ e') :
    ecGet (ecInsert m e' v) e = ecGet m e := by
  induction m with
  | nil => simp [ecInsert, ecGet, Ne.symm h]
  | cons p ps ih =>
    by_cases hp : p.1 = e'
    · subst hp
      simp [ecInsert, ecGet, Ne.symm h]
    · by_cases hpe : p.1 = e
      · simp [ecInsert, ecGet, hp, hpe, h]
      · simp [ecInsert, ecGet, hp, hpe, ih]

theorem ecInsert_keys (m : List (Entity × ComponentSelection)) (e : Entity)
    (v : ComponentSelection) (h : ecGet m e = none) :
    (ecInsert m e v).map Prod.fst = m.map Prod.fst ++ [e] := by
  induction m with
  | nil => simp [ecInsert]
  | cons p ps ih =>
    by_cases hp : p.1 = e
    · simp only [ecGet, if_pos hp] at h
      cases h
    · simp only [ecGet, if_neg hp] at h
      simp [ecInsert, hp, ih h]

theorem ecInsert_keys_mem (m : List (Entity × ComponentSelection)) (e : Entity)
    (v u : ComponentSelection) (h : ecGet m e = some u) :
    (ecInsert m e v).map Prod.fst = m.map Prod.fst := by
  induction m with
  | nil => cases h
  | cons p ps ih =>
    by_cases hp : p.1 = e
    · simp [ecInsert, hp]
    · simp only [ecGet, if_neg hp] at h
      simp [ecInsert, hp, ih h]

theorem ecGet_none_key_not_mem (m : List (Entity × ComponentSelection))
    (e : Entity) (h : ecGet m e = none) : e ∉ m.map Prod.fst := by
  induction m with
  | nil => simp
  | cons p ps ih =>
    by_cases hp : p.1 = e
    · simp only [ecGet, if_pos hp] at h
      cases h
    · simp only [ecGet, if_neg hp] at h
      simp only [List.map_cons, List.mem_cons]
      rintro (rfl | hmem)
      · exact hp rfl
      · exact ih h hmem

theorem nodup_ecInsert_keys (m : List (Entity × ComponentSelection))
    (e : Entity) (v : ComponentSelection) (h : (m.map Prod.fst).Nodup) :
    ((ecInsert m e v).map Prod.fst).Nodup := by
  cases hg : ecGet m e with
  | none =>
    rw [ecInsert_keys m e v hg]
    rw [List.nodup_append]
    refine ⟨h, List.nodup_singleton e, ?_⟩
    intro a ha hb
    simp only [List.mem_singleton] at hb
    rw [hb] at ha
    exact ecGet_none_key_not_mem m e hg ha
  | some u => rw [ecInsert_keys_mem m e v u hg]; exact h

/-! ### Lemmas about kind resolution and the query loop -/

theorem do_component_ids_isSome_of_kindsMatch (w : World) (Q : List Kind)
    (e : Entity) (h : kindsMatch w Q e = true) :
    (do_component_ids w Q).isSome := by
  unfold kindsMatch at h
  induction Q with
  | nil => rfl
  | cons k ks ih =>
    rw [List.all_cons, Bool.and_eq_true] at h
    cases hk : w.compOf k with
    | none => rw [hk] at h; cases h.1
    | some id =>
      have := ih h.2
      rw [do_component_ids, hk]
      cases hm : do_component_ids w ks with
      | none => rw [hm] at this; cases this
      | some ids => simp

theorem do_component_ids_none_of_unregistered (w : World) (Q : List Kind)
    (k : Kind) (hmem : k ∈ Q) (hnone : w.compOf k = none) :
    do_component_ids w Q = none := by
  induction Q with
  | nil => cases hmem
  | cons x xs ih =>
    rcases List.mem_cons.mp hmem with rfl | hxs
    · rw [do_component_ids, hnone]
    · rw [do_component_ids]
      cases hx : w.compOf x with
      | none => rfl
      | some id => rw [ih hxs]; rfl

theorem mem_do_component_ids (w : World) (Q : List Kind)
    (ids : List ComponentId) (h : do_component_ids w Q = some ids)
    (id : ComponentId) :
    id ∈ ids ↔ ∃ k ∈ Q, w.compOf k = some id := by
  induction Q generalizing ids with
  | nil =>
    rw [do_component_ids] at h
    cases h
    simp
  | cons x xs ih =>
    rw [do_component_ids] at h
    cases hx : w.compOf x with
    | none => rw [hx] at h; cases h
    | some i =>
      rw [hx] at h
      cases hm : do_component_ids w xs with
      | none => rw [hm] at h; cases h
      | some rest =>
        rw [hm] at h
        simp only [Option.map_some] at h
        cases h
        simp only [List.mem_cons, ih rest hm]
        constructor
        · rintro (rfl | ⟨k, hk, hck⟩)
          · exact ⟨x, Or.inl rfl, hx⟩
          · exact ⟨k, Or.inr hk, hck⟩
        · rintro ⟨k, (rfl | hk'), hck⟩
          · rw [hx] at hck
            cases hck
            exact Or.inl rfl
          · exact Or.inr ⟨k, hk', hck⟩

theorem sfqcLoop_ok (w : World) (tr : TypeRegistry) (Q : List Kind)
    (ids : List ComponentId) (h : do_component_ids w Q = some ids)
    (l : List Entity) :
    sfqcLoop w tr Q l = Except.ok (l.map fun e =>
      { entity := e
        components := ids.filterMap (get_reflect_by_id w tr e) }) := by
  induction l with
  | nil => rfl
  | cons e es ih =>
    rw [sfqcLoop, h, ih]
    rfl

/-- Characterization of `scene_from_query_components` when the registry
resource is present: it always succeeds, with one `DynamicEntity` per matching
entity, whose components are the resolved declared ids surviving the
reflection chain. (When no entity matches, the declared ids are never
resolved, so the `getD` default is irrelevant.) -/
theorem sfqc_spec (w : World) (Q : List Kind) (F : Entity → Bool)
    (tr : TypeRegistry) (hreg : w.typeRegistry = some tr) :
    scene_from_query_components w Q F = Except.ok
      { entities := (w.entities.filter fun e => kindsMatch w Q e && F e).map
          fun e =>
            { entity := e
              components := ((do_component_ids w Q).getD []).filterMap
                (get_reflect_by_id w tr e) } } := by
  unfold scene_from_query_components
  split
  · rename_i hnone
    rw [hreg] at hnone
    cases hnone
  · rename_i tr' htr'
    rw [hreg] at htr'
    injection htr' with htr'
    subst htr'
    cases hq : do_component_ids w Q with
    | some ids =>
      rw [sfqcLoop_ok w tr Q ids hq]
      rfl
    | none =>
      have hfil : (w.entities.filter fun e => kindsMatch w Q e && F e) = [] := by
        rw [List.filter_eq_nil_iff]
        intro e _ hcontra
        rw [Bool.and_eq_true] at hcontra
        have := do_component_ids_isSome_of_kindsMatch w Q e hcontra.1
        rw [hq] at this
        cases this
      rw [hfil]
      rfl

/-- Characterization of `scene_from_query_filter` when the registry resource
is present. -/
theorem sfqf_spec (w : World) (F : Entity → Bool) (tr : TypeRegistry)
    (hreg : w.typeRegistry = some tr) :
    scene_from_query_filter w F = Except.ok
      { entities := (w.entities.filter F).map fun e =>
          { entity := e
            components :=
              (archComponents w e).filterMap (get_reflect_by_id w tr e) } } := by
  unfold scene_from_query_filter
  rw [hreg]

/-- Characterization of `SceneBuilder.build_scene` when the registry resource
is present. -/
theorem build_scene_spec (w : World) (b : SceneBuilder) (tr : TypeRegistry)
    (hreg : w.typeRegistry = some tr) :
    SceneBuilder.build_scene w b = Except.ok
      { entities := b.ec.map fun p =>
          { entity := p.1
            components :=
              match p.2 with
              | ComponentSelection.all =>
                (archComponents w p.1).filterMap (get_reflect_by_id w tr p.1)
              | ComponentSelection.byIds ids =>
                ids.filterMap (get_reflect_by_id w tr p.1) } } := by
  unfold SceneBuilder.build_scene
  rw [hreg]

/-! ### Builder-side lemmas -/

/-- Coverage order on (optional) component selections: `all` covers
everything, an explicit set covers a smaller explicit set, and anything
covers an absent selection. -/
def selCovers : Option ComponentSelection → Option ComponentSelection → Prop
  | _, none => True
  | some ComponentSelection.all, some _ => True
  | some (ComponentSelection.byIds s), some (ComponentSelection.byIds t) =>
    ∀ id, id ∈ t → id ∈ s
  | some (ComponentSelection.byIds _), some ComponentSelection.all => False
  | none, some _ => False

theorem ecGet_foldl_insert_all (l : List Entity)
    (m : List (Entity × ComponentSelection)) (e : Entity) :
    ecGet (l.foldl (fun m e => ecInsert m e ComponentSelection.all) m) e =
      if e ∈ l then some ComponentSelection.all else ecGet m e := by
  induction l generalizing m with
  | nil => simp
  | cons x xs ih =>
    rw [List.foldl_cons, ih]
    by_cases hx : e ∈ xs
    · simp [hx, List.mem_cons]
    · by_cases hex : e = x
      · subst hex
        simp [hx, ecGet_ecInsert_self]
      · simp [hx, hex, ecGet_ecInsert_ne m e x _ hex]

theorem nodup_foldl_insert_all (l : List Entity)
    (m : List (Entity × ComponentSelection))
    (h : (m.map Prod.fst).Nodup) :
    (((l.foldl (fun m e => ecInsert m e ComponentSelection.all) m)).map
      Prod.fst).Nodup := by
  induction l generalizing m with
  | nil => exact h
  | cons x xs ih => exact ih _ (nodup_ecInsert_keys m x _ h)

theorem addCompsStep_keys_nodup (w : World) (Q : List Kind)
    (m m' : List (Entity × ComponentSelection)) (e : Entity)
    (h : addCompsStep w Q m e = some m') (hn : (m.map Prod.fst).Nodup) :
    (m'.map Prod.fst).Nodup := by
  unfold addCompsStep at h
  cases hg : ecGet m e with
  | none =>
    rw [hg] at h
    cases hq : do_component_ids w Q with
    | none => rw [hq] at h; cases h
    | some ids =>
      rw [hq] at h
      simp only [Option.map_some] at h
      cases h
      exact nodup_ecInsert_keys m e _ hn
  | some sel =>
    rw [hg] at h
    cases sel with
    | all =>
      simp only [Option.some.injEq] at h
      subst h
      exact hn
    | byIds c =>
      cases hq : do_component_ids w Q with
      | none => rw [hq] at h; cases h
      | some ids =>
        rw [hq] at h
        simp only [Option.map_some] at h
        cases h
        exact nodup_ecInsert_keys m e _ hn

theorem foldlM_addCompsStep_keys_nodup (w : World) (Q : List Kind)
    (es : List Entity) (m m' : List (Entity × ComponentSelection))
    (h : es.foldlM (addCompsStep w Q) m = some m')
    (hn : (m.map Prod.fst).Nodup) : (m'.map Prod.fst).Nodup := by
  induction es generalizing m with
  | nil =>
    simp only [List.foldlM_nil, Option.pure_def, Option.some.injEq] at h
    subst h
    exact hn
  | cons x xs ih =>
    rw [List.foldlM_cons] at h
    cases hs : addCompsStep w Q m x with
    | none => rw [hs] at h; cases h
    | some m1 =>
      rw [hs] at h
      exact ih m1 h (addCompsStep_keys_nodup w Q m m1 x hs hn)

/-- The public builder operations, as recorded calls (lib.rs 156–278). -/
inductive BuilderOp where
  | opAddFromQueryFilter (F : Entity → Bool)
  | opAddEntity (e : Entity)
  | opAddEntities (es : List Entity)
  | opAddComponentsToEntity (Q : List Kind) (e : Entity)
  | opAddComponentsToEntities (Q : List Kind) (es : List Entity)
  | opAddWithComponents (Q : List Kind) (F : Entity → Bool)

/-- Run one builder operation against the world; `none` is a panic inside the
operation. -/
def applyOp (w : World) (b : SceneBuilder) : BuilderOp → Option SceneBuilder
  | BuilderOp.opAddFromQueryFilter F =>
    some (SceneBuilder.add_from_query_filter w b F)
  | BuilderOp.opAddEntity e => some (SceneBuilder.add_entity b e)
  | BuilderOp.opAddEntities es => some (SceneBuilder.add_entities b es)
  | BuilderOp.opAddComponentsToEntity Q e =>
    SceneBuilder.add_components_to_entity w b Q e
  | BuilderOp.opAddComponentsToEntities Q es =>
    SceneBuilder.add_components_to_entities w b Q es
  | BuilderOp.opAddWithComponents Q F =>
    SceneBuilder.add_with_components w b Q F

/-- Run a sequence of builder operations starting from `SceneBuilder::new`. -/
def applyOps (w : World) (ops : List BuilderOp) : Option SceneBuilder :=
  ops.foldlM (applyOp w) SceneBuilder.new

theorem applyOp_keys_nodup (w : World) (b b' : SceneBuilder) (op : BuilderOp)
    (h : applyOp w b op = some b') (hn : (b.ec.map Prod.fst).Nodup) :
    (b'.ec.map Prod.fst).Nodup := by
  cases op with
  | opAddFromQueryFilter F =>
    simp only [applyOp, Option.some.injEq] at h
    subst h
    exact nodup_foldl_insert_all _ _ hn
  | opAddEntity e =>
    simp only [applyOp, Option.some.injEq] at h
    subst h
    exact nodup_ecInsert_keys _ _ _ hn
  | opAddEntities es =>
    simp only [applyOp, Option.some.injEq] at h
    subst h
    exact nodup_foldl_insert_all _ _ hn
  | opAddComponentsToEntity Q e =>
    simp only [applyOp, SceneBuilder.add_components_to_entity] at h
    cases hs : addCompsStep w Q b.ec e with
    | none => rw [hs] at h; cases h
    | some m =>
      rw [hs] at h
      simp only [Option.map_some', Option.some.injEq] at h
      subst h
      exact addCompsStep_keys_nodup w Q b.ec m e hs hn
  | opAddComponentsToEntities Q es =>
    simp only [applyOp, SceneBuilder.add_components_to_entities] at h
    cases hs : es.foldlM (addCompsStep w Q) b.ec with
    | none => rw [hs] at h; cases h
    | some m =>
      rw [hs] at h
      simp only [Option.map_some', Option.some.injEq] at h
      subst h
      exact foldlM_addCompsStep_keys_nodup w Q es b.ec m hs hn
  | opAddWithComponents Q F =>
    simp only [applyOp, SceneBuilder.add_with_components] at h
    cases hs : (w.entities.filter fun e => kindsMatch w Q e && F e).foldlM
        (addCompsStep w Q) b.ec with
    | none => rw [hs] at h; cases h
    | some m =>
      rw [hs] at h
      simp only [Option.map_some', Option.some.injEq] at h
      subst h
      exact foldlM_addCompsStep_keys_nodup w Q _ b.ec m hs hn

/-! ### Concrete instances used by the witnesses -/

/-- Reflect handle for the component with id 5 (a Position-like kind):
present on entities 0 and 1. -/
def rcPos : Entity → Option Value :=
  fun e => if e = 0 then some 100 else if e = 1 then some 101 else none

/-- Reflect handle for the component with id 6 (a Velocity-like kind):
present on entities 0 and 2. -/
def rcVel : Entity → Option Value :=
  fun e => if e = 0 then some 200 else if e = 2 then some 202 else none

/-- A concrete registry: type ids 10 and 11 are registered with
`ReflectComponent` data, type id 13 is registered without it, everything
else is absent. -/
def trC : TypeRegistry :=
  { get := fun tid =>
      if tid = 10 then some { reflectComponent := some rcPos }
      else if tid = 11 then some { reflectComponent := some rcVel }
      else if tid = 13 then some { reflectComponent := none }
      else none }

/-- A concrete world: entities 0 (components 5 and 6), 1 (component 5),
2 (component 6). Kind 0 resolves to component 5, kind 1 to component 6,
kind 3 to component 7 (which has no component info), kind 2 is unregistered.
Component 8 has a type id missing from the registry; component 9 has a
registry entry without `ReflectComponent` data. -/
def wC : World :=
  { entities := [0, 1, 2]
    compOf := fun k =>
      if k = 0 then some 5 else if k = 1 then some 6
      else if k = 3 then some 7 else none
    getInfo := fun id =>
      if id = 5 then some 10 else if id = 6 then some 11
      else if id = 8 then some 12 else if id = 9 then some 13 else none
    archetypeOf := fun e =>
      if e = 0 then some [5, 6] else if e = 1 then some [5]
      else if e = 2 then some [6] else none
    typeRegistry := some trC }

/-- `wC` with the `TypeRegistry` resource removed. -/
def wNoReg : World :=
  { wC with typeRegistry := none }

/-! ### Claim theorems -/

/-- C1: with the registry present, `scene_from_query_components` produces a
scene containing exactly the entities satisfying (has-all-declared-kinds AND
filter); each output entity carries exactly the values of the declared,
resolved kinds that survive the reflection chain (so only declared kinds that
are present and reflectable), and a matching entity still appears even when
its component list is empty. -/
theorem scene_from_query_components_correct (w : World) (Q : List Kind)
    (F : Entity → Bool) (tr : TypeRegistry) (hreg : w.typeRegistry = some tr) :
    ∃ s, scene_from_query_components w Q F = Except.ok s
      ∧ s.entities.map DynamicEntity.entity =
          w.entities.filter (fun e => kindsMatch w Q e && F e)
      ∧ (∀ de ∈ s.entities, ∃ ids, do_component_ids w Q = some ids
          ∧ (∀ id ∈ ids, ∃ k ∈ Q, w.compOf k = some id)
          ∧ de.components = ids.filterMap (get_reflect_by_id w tr de.entity))
      ∧ (∀ e ∈ w.entities, kindsMatch w Q e = true → F e = true →
          ∃ de ∈ s.entities, de.entity = e) := by
  refine ⟨_, sfqc_spec w Q F tr hreg, ?_, ?_, ?_⟩
  · rw [List.map_map]
    exact List.map_id _
  · intro de hde
    rw [List.mem_map] at hde
    obtain ⟨e, he, rfl⟩ := hde
    rw [List.mem_filter, Bool.and_eq_true] at he
    obtain ⟨ids, hq⟩ := Option.isSome_iff_exists.mp
      (do_component_ids_isSome_of_kindsMatch w Q e he.2.1)
    refine ⟨ids, hq, ?_, ?_⟩
    · intro id hid
      exact (mem_do_component_ids w Q ids hq id).mp hid
    · rw [hq]
      rfl
  · intro e he hkm hF
    refine ⟨_, List.mem_map_of_mem _ ?_, rfl⟩
    rw [List.mem_filter, Bool.and_eq_true]
    exact ⟨he, hkm, hF⟩

/-- C1 witness: the claim instantiated on the concrete world `wC`, declaring
kind 0 with a trivial filter. -/
theorem scene_from_query_components_correct_witness :
    wC.typeRegistry = some trC ∧
    (∃ s, scene_from_query_components wC [0] (fun _ => true) = Except.ok s
      ∧ s.entities.map DynamicEntity.entity =
          wC.entities.filter (fun e => kindsMatch wC [0] e && (fun _ => true) e)
      ∧ (∀ de ∈ s.entities, ∃ ids, do_component_ids wC [0] = some ids
          ∧ (∀ id ∈ ids, ∃ k ∈ [0], wC.compOf k = some id)
          ∧ de.components = ids.filterMap (get_reflect_by_id wC trC de.entity))
      ∧ (∀ e ∈ wC.entities, kindsMatch wC [0] e = true → (fun _ => true) e = true →
          ∃ de ∈ s.entities, de.entity = e)) :=
  ⟨rfl, scene_from_query_components_correct wC [0] (fun _ => true) trC rfl⟩

/-- C2: with the registry present, `scene_from_query_filter` produces a scene
with exactly the filter-matching entities; each output entity's component
list consists, value for value, of exactly the reflection-chain survivors of
the component ids introspected from its archetype, and no non-matching
entity ever appears. -/
theorem scene_from_query_filter_correct (w : World) (F : Entity → Bool)
    (tr : TypeRegistry) (hreg : w.typeRegistry = some tr) :
    ∃ s, scene_from_query_filter w F = Except.ok s
      ∧ s.entities.map DynamicEntity.entity = w.entities.filter F
      ∧ (∀ de ∈ s.entities, F de.entity = true)
      ∧ (∀ de ∈ s.entities, ∀ v, v ∈ de.components ↔
          ∃ id ∈ archComponents w de.entity,
            get_reflect_by_id w tr de.entity id = some v)
      ∧ (∀ e ∈ w.entities, F e = true → ∃ de ∈ s.entities, de.entity = e) := by
  refine ⟨_, sfqf_spec w F tr hreg, ?_, ?_, ?_, ?_⟩
  · rw [List.map_map]
    exact List.map_id _
  · intro de hde
    rw [List.mem_map] at hde
    obtain ⟨e, he, rfl⟩ := hde
    exact (List.mem_filter.mp he).2
  · intro de hde v
    rw [List.mem_map] at hde
    obtain ⟨e, _, rfl⟩ := hde
    exact List.mem_filterMap
  · intro e he hF
    refine ⟨_, List.mem_map_of_mem _ ?_, rfl⟩
    rw [List.mem_filter]
    exact ⟨he, hF⟩

/-- C2 witness: the claim instantiated on `wC` with the filter "entity id is
0 or 1". -/
theorem scene_from_query_filter_correct_witness :
    wC.typeRegistry = some trC ∧
    (∃ s, scene_from_query_filter wC (fun e => e < 2) = Except.ok s
      ∧ s.entities.map DynamicEntity.entity =
          wC.entities.filter (fun e => e < 2)
      ∧ (∀ de ∈ s.entities, (fun e : Entity => decide (e < 2)) de.entity = true)
      ∧ (∀ de ∈ s.entities, ∀ v, v ∈ de.components ↔
          ∃ id ∈ archComponents wC de.entity,
            get_reflect_by_id wC trC de.entity id = some v)
      ∧ (∀ e ∈ wC.entities, (fun e : Entity => decide (e < 2)) e = true →
          ∃ de ∈ s.entities, de.entity = e)) :=
  ⟨rfl, scene_from_query_filter_correct wC (fun e => e < 2) trC rfl⟩

/-- C3: builder merge law. Adding kinds `Q1` then `Q2` to an entity with no
existing selection yields the explicit selection whose members are exactly
the resolved ids of `Q1` union those of `Q2`; adding any kinds to an entity
whose selection is `all` returns the builder completely unchanged. -/
theorem add_components_to_entity_merge (w : World) (b : SceneBuilder)
    (e : Entity) (Q1 Q2 : List Kind) :
    (∀ b1 b2, ecGet b.ec e = none →
      SceneBuilder.add_components_to_entity w b Q1 e = some b1 →
      SceneBuilder.add_components_to_entity w b1 Q2 e = some b2 →
      ∃ ids1 ids2, do_component_ids w Q1 = some ids1
        ∧ do_component_ids w Q2 = some ids2
        ∧ ∃ s, ecGet b2.ec e = some (ComponentSelection.byIds s)
        ∧ ∀ id, id ∈ s ↔ id ∈ ids1 ∨ id ∈ ids2)
    ∧ (∀ Q, ecGet b.ec e = some ComponentSelection.all →
      SceneBuilder.add_components_to_entity w b Q e = some b) := by
  constructor
  · intro b1 b2 hnone h1 h2
    unfold SceneBuilder.add_components_to_entity addCompsStep at h1
    rw [hnone] at h1
    cases hq1 : do_component_ids w Q1 with
    | none => rw [hq1] at h1; cases h1
    | some ids1 =>
      rw [hq1] at h1
      simp only [Option.map_some', Option.some.injEq] at h1
      subst h1
      have hb1 : ecGet (ecInsert b.ec e
          (ComponentSelection.byIds (hsInsertMany [] ids1))) e =
          some (ComponentSelection.byIds (hsInsertMany [] ids1)) :=
        ecGet_ecInsert_self _ _ _
      unfold SceneBuilder.add_components_to_entity addCompsStep at h2
      rw [hb1] at h2
      cases hq2 : do_component_ids w Q2 with
      | none => rw [hq2] at h2; cases h2
      | some ids2 =>
        rw [hq2] at h2
        simp only [Option.map_some', Option.some.injEq] at h2
        subst h2
        refine ⟨ids1, ids2, rfl, rfl,
          hsInsertMany (hsInsertMany [] ids1) ids2,
          ecGet_ecInsert_self _ _ _, ?_⟩
        intro id
        rw [mem_hsInsertMany, mem_hsInsertMany]
        simp
  · intro Q hall
    unfold SceneBuilder.add_components_to_entity addCompsStep
    rw [hall]
    cases b
    rfl

/-- C3 witness: on `wC`, adding kind 0 then kind 1 to the unselected entity 0
yields the explicit selection with exactly the ids 5 and 6; adding kinds to
an entity selected as `all` changes nothing. -/
theorem add_components_to_entity_merge_witness :
    (∃ ids1 ids2, do_component_ids wC [0] = some ids1
        ∧ do_component_ids wC [1] = some ids2
        ∧ ∃ s, ecGet (SceneBuilder.mk
            [(0, ComponentSelection.byIds [5, 6])]).ec 0 =
            some (ComponentSelection.byIds s)
        ∧ ∀ id, id ∈ s ↔ id ∈ ids1 ∨ id ∈ ids2)
    ∧ SceneBuilder.add_components_to_entity wC
        (SceneBuilder.mk [(0, ComponentSelection.all)]) [0] 0 =
        some (SceneBuilder.mk [(0, ComponentSelection.all)]) :=
  ⟨(add_components_to_entity_merge wC (SceneBuilder.mk []) 0 [0] [1]).1
      (SceneBuilder.mk [(0, ComponentSelection.byIds [5])])
      (SceneBuilder.mk [(0, ComponentSelection.byIds [5, 6])])
      rfl rfl rfl,
   (add_components_to_entity_merge wC
      (SceneBuilder.mk [(0, ComponentSelection.all)]) 0 [0] [1]).2 [0] rfl⟩

theorem ecInsert_ecInsert_same (m : List (Entity × ComponentSelection))
    (e : Entity) (v : ComponentSelection) :
    ecInsert (ecInsert m e v) e v = ecInsert m e v := by
  induction m with
  | nil => simp [ecInsert]
  | cons p ps ih =>
    by_cases hp : p.1 = e
    · simp [ecInsert, hp]
    · simp [ecInsert, hp, ih]

/-- C9: `add_entity` is idempotent — calling it twice with the same entity
leaves the builder mapping exactly as one call does. -/
theorem add_entity_idempotent (b : SceneBuilder) (e : Entity) :
    SceneBuilder.add_entity (SceneBuilder.add_entity b e) e =
      SceneBuilder.add_entity b e := by
  unfold SceneBuilder.add_entity
  rw [ecInsert_ecInsert_same]

theorem selCovers_all_left (o : Option ComponentSelection) :
    selCovers (some ComponentSelection.all) o := by
  cases o with
  | none => trivial
  | some sel => cases sel <;> trivial

/-- C7: `add_from_query_filter` gives every matching entity the `all`
selection; afterwards each matching entity's selection covers whatever it
covered before (so an existing explicit selection is never downgraded), and
non-matching entities are untouched. -/
theorem add_from_query_filter_covers (w : World) (b : SceneBuilder)
    (F : Entity → Bool) (b' : SceneBuilder)
    (h : SceneBuilder.add_from_query_filter w b F = b') :
    (∀ e ∈ w.entities, F e = true →
      ecGet b'.ec e = some ComponentSelection.all)
    ∧ (∀ e ∈ w.entities, F e = true → selCovers (ecGet b'.ec e) (ecGet b.ec e))
    ∧ (∀ e, e ∉ w.entities ∨ F e = false → ecGet b'.ec e = ecGet b.ec e) := by
  subst h
  unfold SceneBuilder.add_from_query_filter
  refine ⟨?_, ?_, ?_⟩
  · intro e he hF
    rw [ecGet_foldl_insert_all]
    rw [if_pos (List.mem_filter.mpr ⟨he, hF⟩)]
  · intro e he hF
    rw [ecGet_foldl_insert_all]
    rw [if_pos (List.mem_filter.mpr ⟨he, hF⟩)]
    exact selCovers_all_left _
  · intro e hne
    rw [ecGet_foldl_insert_all]
    rw [if_neg]
    intro hmem
    rw [List.mem_filter] at hmem
    rcases hne with hne | hne
    · exact hne hmem.1
    · rw [hmem.2] at hne
      cases hne

/-- C7 witness: on `wC` with the filter "entity id is even", starting from a
builder that already has an explicit selection for entity 0. -/
theorem add_from_query_filter_covers_witness :
    (∀ e ∈ wC.entities, (fun e : Entity => decide (e % 2 = 0)) e = true →
      ecGet (SceneBuilder.add_from_query_filter wC
        (SceneBuilder.mk [(0, ComponentSelection.byIds [5])])
        (fun e => e % 2 = 0)).ec e = some ComponentSelection.all)
    ∧ (∀ e ∈ wC.entities, (fun e : Entity => decide (e % 2 = 0)) e = true →
      selCovers
        (ecGet (SceneBuilder.add_from_query_filter wC
          (SceneBuilder.mk [(0, ComponentSelection.byIds [5])])
          (fun e => e % 2 = 0)).ec e)
        (ecGet (SceneBuilder.mk [(0, ComponentSelection.byIds [5])]).ec e))
    ∧ (∀ e, e ∉ wC.entities ∨ (fun e : Entity => decide (e % 2 = 0)) e = false →
      ecGet (SceneBuilder.add_from_query_filter wC
        (SceneBuilder.mk [(0, ComponentSelection.byIds [5])])
        (fun e => e % 2 = 0)).ec e =
      ecGet (SceneBuilder.mk [(0, ComponentSelection.byIds [5])]).ec e) :=
  add_from_query_filter_covers wC
    (SceneBuilder.mk [(0, ComponentSelection.byIds [5])])
    (fun e => e % 2 = 0) _ rfl

/-- C4: silent-filtering policy. Every failure mode of the per-component
lookup chain — missing component info, missing type-registry entry, missing
`ReflectComponent` data, or the value declining to reflect — collapses to
`none` (the component is omitted); and in all three entry points the set of
output entities is fully determined by the query filter or the builder
mapping, never by reflection outcomes, so such failures exclude no entity
and raise no error. -/
theorem silent_filtering_policy :
    (∀ (w : World) (tr : TypeRegistry) (e : Entity) (id : ComponentId),
      w.getInfo id = none → get_reflect_by_id w tr e id = none)
    ∧ (∀ (w : World) (tr : TypeRegistry) (e : Entity) (id : ComponentId)
        (tid : TypeId),
      w.getInfo id = some tid → tr.get tid = none →
      get_reflect_by_id w tr e id = none)
    ∧ (∀ (w : World) (tr : TypeRegistry) (e : Entity) (id : ComponentId)
        (tid : TypeId) (reg : Registration),
      w.getInfo id = some tid → tr.get tid = some reg →
      reg.reflectComponent = none → get_reflect_by_id w tr e id = none)
    ∧ (∀ (w : World) (tr : TypeRegistry) (e : Entity) (id : ComponentId)
        (tid : TypeId) (reg : Registration) (rc : Entity → Option Value),
      w.getInfo id = some tid → tr.get tid = some reg →
      reg.reflectComponent = some rc → rc e = none →
      get_reflect_by_id w tr e id = none)
    ∧ (∀ (w : World) (tr : TypeRegistry) (Q : List Kind) (F : Entity → Bool),
      w.typeRegistry = some tr →
      ∃ s, scene_from_query_components w Q F = Except.ok s
        ∧ s.entities.map DynamicEntity.entity =
            w.entities.filter (fun e => kindsMatch w Q e && F e))
    ∧ (∀ (w : World) (tr : TypeRegistry) (F : Entity → Bool),
      w.typeRegistry = some tr →
      ∃ s, scene_from_query_filter w F = Except.ok s
        ∧ s.entities.map DynamicEntity.entity = w.entities.filter F)
    ∧ (∀ (w : World) (tr : TypeRegistry) (b : SceneBuilder),
      w.typeRegistry = some tr →
      ∃ s, SceneBuilder.build_scene w b = Except.ok s
        ∧ s.entities.map DynamicEntity.entity = b.ec.map Prod.fst) := by
  refine ⟨?_, ?_, ?_, ?_, ?_, ?_, ?_⟩
  · intro w tr e id h
    unfold get_reflect_by_id
    rw [h]
    rfl
  · intro w tr e id tid h1 h2
    unfold get_reflect_by_id
    rw [h1]
    simp [h2]
  · intro w tr e id tid reg h1 h2 h3
    unfold get_reflect_by_id
    rw [h1]
    simp [h2, h3]
  · intro w tr e id tid reg rc h1 h2 h3 h4
    unfold get_reflect_by_id
    rw [h1]
    simp [h2, h3, h4]
  · intro w tr Q F hreg
    refine ⟨_, sfqc_spec w Q F tr hreg, ?_⟩
    rw [List.map_map]
    exact List.map_id _
  · intro w tr F hreg
    refine ⟨_, sfqf_spec w F tr hreg, ?_⟩
    rw [List.map_map]
    exact List.map_id _
  · intro w tr b hreg
    refine ⟨_, build_scene_spec w b tr hreg, ?_⟩
    rw [List.map_map]
    rfl

/-- C4 witness: each failure mode instantiated on `wC` — component 7 has no
info, component 8 has no registry entry, component 9 has no
`ReflectComponent` data, and `rcPos` declines to reflect on entity 2 — and
the three entry points still return a scene whose entity list is determined
by filter/selection alone. -/
theorem silent_filtering_policy_witness :
    get_reflect_by_id wC trC 0 7 = none
    ∧ get_reflect_by_id wC trC 0 8 = none
    ∧ get_reflect_by_id wC trC 0 9 = none
    ∧ get_reflect_by_id wC trC 2 5 = none
    ∧ (∃ s, scene_from_query_components wC [0] (fun _ => true) = Except.ok s
        ∧ s.entities.map DynamicEntity.entity =
            wC.entities.filter (fun e => kindsMatch wC [0] e && (fun _ => true) e))
    ∧ (∃ s, scene_from_query_filter wC (fun _ => true) = Except.ok s
        ∧ s.entities.map DynamicEntity.entity =
            wC.entities.filter (fun _ => true))
    ∧ (∃ s, SceneBuilder.build_scene wC
          (SceneBuilder.mk [(1, ComponentSelection.byIds [5, 9])]) = Except.ok s
        ∧ s.entities.map DynamicEntity.entity =
            (SceneBuilder.mk [(1, ComponentSelection.byIds [5, 9])]).ec.map
              Prod.fst) :=
  ⟨silent_filtering_policy.1 wC trC 0 7 rfl,
   silent_filtering_policy.2.1 wC trC 0 8 12 rfl rfl,
   silent_filtering_policy.2.2.1 wC trC 0 9 13 { reflectComponent := none }
     rfl rfl rfl,
   silent_filtering_policy.2.2.2.1 wC trC 2 5 10
     { reflectComponent := some rcPos } rcPos rfl rfl rfl rfl,
   silent_filtering_policy.2.2.2.2.1 wC trC [0] (fun _ => true) rfl,
   silent_filtering_policy.2.2.2.2.2.1 wC trC (fun _ => true) rfl,
   silent_filtering_policy.2.2.2.2.2.2 wC trC
     (SceneBuilder.mk [(1, ComponentSelection.byIds [5, 9])]) rfl⟩

/-- C5: `build_scene` takes the builder by shared reference (`&self`) and
reads the world only through it, so the model types it as a pure function of
the builder state and the world; consequently it never mutates either, and
two calls on equal builder states over the same world — in particular two
successive calls with no intervening mutation — produce identical scenes. -/
theorem build_scene_pure (w : World) (b b' : SceneBuilder)
    (hec : b.ec = b'.ec) :
    SceneBuilder.build_scene w b = SceneBuilder.build_scene w b' := by
  cases b
  cases b'
  cases hec
  rfl

/-- C5 witness: two calls on the same accumulated state over `wC` agree. -/
theorem build_scene_pure_witness :
    (SceneBuilder.mk [(0, ComponentSelection.all)]).ec =
      (SceneBuilder.mk [(0, ComponentSelection.all)]).ec
    ∧ SceneBuilder.build_scene wC (SceneBuilder.mk [(0, ComponentSelection.all)]) =
      SceneBuilder.build_scene wC (SceneBuilder.mk [(0, ComponentSelection.all)]) :=
  ⟨rfl, build_scene_pure wC _ _ rfl⟩

/-- C10: every entry point unwraps the `TypeRegistry` resource — on a world
without it, all three panic with that unwrap; when the resource is present,
all three return a scene, so the registry-unwrap panic branch is
unreachable. -/
theorem type_registry_precondition (w : World) (Q : List Kind)
    (F : Entity → Bool) (b : SceneBuilder) :
    (w.typeRegistry = none →
      scene_from_query_components w Q F = Except.error Panic.noTypeRegistry
      ∧ scene_from_query_filter w F = Except.error Panic.noTypeRegistry
      ∧ SceneBuilder.build_scene w b = Except.error Panic.noTypeRegistry)
    ∧ (∀ tr, w.typeRegistry = some tr →
      (∃ s, scene_from_query_components w Q F = Except.ok s)
      ∧ (∃ s, scene_from_query_filter w F = Except.ok s)
      ∧ (∃ s, SceneBuilder.build_scene w b = Except.ok s)) := by
  constructor
  · intro hnone
    refine ⟨?_, ?_, ?_⟩
    · unfold scene_from_query_components
      rw [hnone]
    · unfold scene_from_query_filter
      rw [hnone]
    · unfold SceneBuilder.build_scene
      rw [hnone]
  · intro tr htr
    exact ⟨⟨_, sfqc_spec w Q F tr htr⟩, ⟨_, sfqf_spec w F tr htr⟩,
      ⟨_, build_scene_spec w b tr htr⟩⟩

/-- C10 witness: on `wNoReg` (no registry resource) all three entry points
panic; on `wC` (registry present) all three succeed. -/
theorem type_registry_precondition_witness :
    (scene_from_query_components wNoReg [0] (fun _ => true) =
        Except.error Panic.noTypeRegistry
      ∧ scene_from_query_filter wNoReg (fun _ => true) =
        Except.error Panic.noTypeRegistry
      ∧ SceneBuilder.build_scene wNoReg (SceneBuilder.mk []) =
        Except.error Panic.noTypeRegistry)
    ∧ ((∃ s, scene_from_query_components wC [0] (fun _ => true) = Except.ok s)
      ∧ (∃ s, scene_from_query_filter wC (fun _ => true) = Except.ok s)
      ∧ (∃ s, SceneBuilder.build_scene wC (SceneBuilder.mk []) = Except.ok s)) :=
  ⟨(type_registry_precondition wNoReg [0] (fun _ => true)
      (SceneBuilder.mk [])).1 rfl,
   (type_registry_precondition wC [0] (fun _ => true)
      (SceneBuilder.mk [])).2 trC rfl⟩

theorem foldlM_applyOp_keys_nodup (w : World) (ops : List BuilderOp)
    (b0 b : SceneBuilder) (h : ops.foldlM (applyOp w) b0 = some b)
    (hn : (b0.ec.map Prod.fst).Nodup) : (b.ec.map Prod.fst).Nodup := by
  induction ops generalizing b0 with
  | nil =>
    simp only [List.foldlM_nil, Option.pure_def, Option.some.injEq] at h
    subst h
    exact hn
  | cons op ops ih =>
    rw [List.foldlM_cons] at h
    cases hs : applyOp w b0 op with
    | none => rw [hs] at h; cases h
    | some b1 =>
      rw [hs] at h
      exact ih b1 h (applyOp_keys_nodup w b0 b1 op hs hn)

/-- C6: after any sequence of builder operations (each of
`add_from_query_filter`, `add_entity`, `add_entities`,
`add_components_to_entity`, `add_components_to_entities`,
`add_with_components`) starting from `SceneBuilder::new`, no entity
identifier appears twice in the builder's entity-to-selection mapping:
re-adding an entity merges or replaces its selection in place. -/
theorem builder_mapping_nodup (w : World) (ops : List BuilderOp)
    (b : SceneBuilder) (h : applyOps w ops = some b) :
    (b.ec.map Prod.fst).Nodup := by
  unfold applyOps at h
  exact foldlM_applyOp_keys_nodup w ops SceneBuilder.new b h (by simp [SceneBuilder.new])

/-- C6 witness: a sequence that re-adds entity 1 three different ways still
leaves each entity exactly once in the mapping. -/
theorem builder_mapping_nodup_witness :
    applyOps wC
      [BuilderOp.opAddEntity 1,
       BuilderOp.opAddFromQueryFilter (fun _ => true),
       BuilderOp.opAddComponentsToEntity [0] 1] =
      some (SceneBuilder.mk
        [(1, ComponentSelection.all), (0, ComponentSelection.all),
         (2, ComponentSelection.all)])
    ∧ ((SceneBuilder.mk
        [(1, ComponentSelection.all), (0, ComponentSelection.all),
         (2, ComponentSelection.all)]).ec.map Prod.fst).Nodup :=
  ⟨rfl,
   builder_mapping_nodup wC
     [BuilderOp.opAddEntity 1,
      BuilderOp.opAddFromQueryFilter (fun _ => true),
      BuilderOp.opAddComponentsToEntity [0] 1] _ rfl⟩

/-- C8: declaring a component kind that was never registered with the world
is a panic surfaced exactly when the `ComponentList` resolves its ids
(`do_component_ids` panics), not a silently filtered absence: through
`add_components_to_entity` on a not-yet-selected entity the whole call
panics rather than producing a degraded selection. -/
theorem unregistered_kind_panics (w : World) (Q : List Kind) (k : Kind)
    (hmem : k ∈ Q) (hunreg : w.compOf k = none) :
    do_component_ids w Q = none
    ∧ (∀ b e, ecGet b.ec e = none →
      SceneBuilder.add_components_to_entity w b Q e = none) := by
  have hd := do_component_ids_none_of_unregistered w Q k hmem hunreg
  refine ⟨hd, ?_⟩
  intro b e hnone
  unfold SceneBuilder.add_components_to_entity addCompsStep
  rw [hnone, hd]
  rfl

/-- C8 witness: kind 2 has no `ComponentId` in `wC`; resolving it panics,
and so does adding it to a fresh entity in a builder. -/
theorem unregistered_kind_panics_witness :
    (2 : Kind) ∈ [0, 2] ∧ wC.compOf 2 = none
    ∧ do_component_ids wC [0, 2] = none
    ∧ SceneBuilder.add_components_to_entity wC (SceneBuilder.mk []) [0, 2] 0 =
      none :=
  ⟨by decide, rfl,
   (unregistered_kind_panics wC [0, 2] 2 (by decide) rfl).1,
   (unregistered_kind_panics wC [0, 2] 2 (by decide) rfl).2
     (SceneBuilder.mk []) 0 rfl⟩
